import Mathlib

/-!
Verification development for the iterative DNS resolver of this repository
(src/iterative_resolver.py, with the log-line formats of src/iterative_client.py).

The resolver is embedded shallowly:

* Wire messages are abstract tokens (natural numbers).  The behaviour of the
  outside world — wire parsing (dnslib DNSRecord.parse), query construction
  (DNSRecord.question(...).pack()) and one UDP exchange with a server
  (sendto/recvfrom with its measured round-trip time) — is an explicit
  environment record Env.  A parse failure (dnslib raising an exception) is
  modelled as Env.parse returning none; a probe timeout as Env.send returning
  none; a successful probe returns the reply wire token together with the
  measured round-trip time (milliseconds, abstracted to a natural number —
  the float rounding of the source is irrelevant to every claim treated here).

* The Python function resolve_iteratively is the mutual block
  resolveIter / resolveLoop / deriveNext / glueLoop below.  Python exceptions
  propagate as the Res.exc outcome; since the source recursion is unbounded,
  the embedding carries a fuel parameter, and Res.fuelOut is the outcome when
  the fuel is exhausted.  A run of the source terminates iff some fuel makes
  the embedding return Res.exc or Res.val; a run that returns Res.fuelOut for
  every fuel is a non-terminating run of the source.

* The wall-clock total (total_ms) of the source is dropped: it is real time,
  and no claim below mentions it.  The returned queried name (qname) is kept.
-/

/-- Resource record as the resolver sees it through dnslib: owner name,
numeric record type (1 = A, 2 = NS) and the textual rdata. -/
structure RR where
  rname : String
  rtype : Nat
  rdata : String
deriving DecidableEq

/-- Parsed DNS message: the queried name and the three record sections used
by the source (rr = answer, auth = authority, ar = additional). -/
structure DNSMsg where
  qname : String
  rr : List RR
  auth : List RR
  ar : List RR
deriving DecidableEq

/-- Raw wire bytes, abstracted to an opaque token. -/
abbrev Wire := Nat

/-- Environment: parsing, query construction and the network, i.e. everything
the source delegates to dnslib and to the UDP socket.  Env.send returns the
reply wire and the measured round-trip time, or none on timeout; Env.parse
returns none when dnslib would raise a parse error. -/
structure Env where
  parse : Wire → Option DNSMsg
  question : String → Wire
  send : String → Wire → Option (Wire × Nat)

/-- Outcome of a (fuel-bounded) run: an uncaught Python exception, fuel
exhaustion, or a value. -/
inductive Res (α : Type) where
  | exc : Res α
  | fuelOut : Res α
  | val : α → Res α
deriving DecidableEq

/-- Functorial action on the value case; exceptions and fuel exhaustion are
passed through, exactly as an un-caught exception propagates in the source. -/
def Res.mapv {α β : Type} (f : α → β) : Res α → Res β
  | .exc => .exc
  | .fuelOut => .fuelOut
  | .val a => .val (f a)

/-- One step-log entry.  The source stores Python dicts with two shapes:
the timeout entry of line 55 has keys step, server, rtt (None) and
status ('timeout'); the response entry of line 79 has keys step, server,
rtt, stage and response.  A key absent from the dict is modelled as none. -/
structure StepRecord where
  step : Nat
  server : String
  rtt : Option Nat
  stage : Option String
  response : Option (List String)
  status : Option String
deriving DecidableEq

/-- Timeout entry appended for a candidate that did not respond
(line 55 of src/iterative_resolver.py). -/
def timeoutRec (idx : Nat) (server : String) : StepRecord :=
  { step := idx, server := server, rtt := none,
    stage := none, response := none, status := some "timeout" }

/-- Default root servers of the source (ROOT_NS, lines 14-18). -/
def ROOT_NS : List String :=
  ["198.41.0.4", "199.9.14.201", "192.33.4.12"]

/-- Stage classification of lines 63-68: step 1 is Root; otherwise TLD when
the authority section is non-empty and the answer section empty; otherwise
Authoritative. -/
def classifyStage (idx : Nat) (parsed : DNSMsg) : String :=
  if idx = 1 then "Root"
  else if parsed.auth ≠ [] ∧ parsed.rr = [] then "TLD"
  else "Authoritative"

/-- Response summary of lines 71-77: one line per record of the answer
section (or, if that is empty, the authority section); the fixed text
'Referral or empty' when both are empty. -/
def summarize (parsed : DNSMsg) : List String :=
  let records := if parsed.rr ≠ [] then parsed.rr else parsed.auth
  if records ≠ [] then
    records.map (fun rr => rr.rname ++ " -> " ++ toString rr.rtype ++ " -> " ++ rr.rdata)
  else ["Referral or empty"]

/-- Step-log entry appended for the responding candidate (line 79). -/
def okRec (idx : Nat) (server : String) (rtt : Nat) (parsed : DNSMsg) : StepRecord :=
  { step := idx, server := server, rtt := some rtt,
    stage := some (classifyStage idx parsed),
    response := some (summarize parsed), status := none }

/-- The rdata of the A records (rtype 1) of a section, in order — the
comprehensions of lines 86 and 98-100. -/
def aRecords (rrs : List RR) : List String :=
  (rrs.filter (fun r => r.rtype = 1)).map (fun r => r.rdata)

/-- The rdata of the NS records (rtype 2) of a section, in order — the
comprehension of line 88. -/
def nsRecords (rrs : List RR) : List String :=
  (rrs.filter (fun r => r.rtype = 2)).map (fun r => r.rdata)

/-- Sequential probe loop of lines 42-55: try each candidate in order,
appending a timeout entry per non-responding candidate, and stop at the
first responder, returning it with its reply and round-trip time. -/
def probeAll (env : Env) (q : Wire) (idx : Nat) : List String → List StepRecord × Option (String × Wire × Nat)
  | [] => ([], none)
  | s :: rest =>
    match env.send s q with
    | some (data, rtt) => ([], some (s, data, rtt))
    | none =>
      let r := probeAll env q idx rest
      (timeoutRec idx s :: r.1, r.2)

mutual

/-- Entry point, embedding resolve_iteratively (lines 21-109): parse the
query (a parse failure raises), then run the delegation-walk loop from the
root servers with the step index starting at 0.  The value returned is
(response payload or none, flattened step log, queried name). -/
def resolveIter (env : Env) (fuel : Nat) (queryBytes : Wire) : Res (Option Wire × List StepRecord × String) :=
  match fuel with
  | 0 => .fuelOut
  | fuel + 1 =>
    match env.parse queryBytes with
    | none => .exc
    | some query =>
      (resolveLoop env fuel queryBytes ROOT_NS 0).mapv (fun r => (r.1, r.2, query.qname))

/-- One iteration of the while loop of lines 36-106, at the delegation level
whose 1-based index is stepIdx + 1: probe the candidates in order; if none
responded, fail with the timeout entries; otherwise parse the reply (a parse
failure raises), append the response entry, stop with the raw reply as
payload when it carries answer records, and otherwise derive the next
candidate set and continue (or fail if it is empty). -/
def resolveLoop (env : Env) (fuel : Nat) (queryBytes : Wire) (currentNs : List String) (stepIdx : Nat) : Res (Option Wire × List StepRecord) :=
  match fuel with
  | 0 => .fuelOut
  | fuel + 1 =>
    let idx := stepIdx + 1
    let pr := probeAll env queryBytes idx currentNs
    match pr.2 with
    | none => .val (none, pr.1)
    | some (server, data, rtt) =>
      match env.parse data with
      | none => .exc
      | some parsed =>
        let rec1 := okRec idx server rtt parsed
        if parsed.rr ≠ [] then
          .val (some data, pr.1 ++ [rec1])
        else
          match deriveNext env fuel parsed with
          | .exc => .exc
          | .fuelOut => .fuelOut
          | .val (glueRecs, nextIps) =>
            if nextIps = [] then .val (none, pr.1 ++ rec1 :: glueRecs)
            else (resolveLoop env fuel queryBytes nextIps idx).mapv
                   (fun r => (r.1, pr.1 ++ rec1 :: (glueRecs ++ r.2)))

/-- Next-candidate derivation of lines 85-101: the glue addresses of the
additional section; when there are none, the addresses obtained by nested
resolution of the NS host names of the authority section (none at all when
there are no NS names either).  Returns the spliced sub-logs and the
candidate list. -/
def deriveNext (env : Env) (fuel : Nat) (parsed : DNSMsg) : Res (List StepRecord × List String) :=
  match fuel with
  | 0 => .fuelOut
  | fuel + 1 =>
    let nextIps := aRecords parsed.ar
    if nextIps = [] then
      let nsNames := nsRecords parsed.auth
      if nsNames = [] then .val ([], [])
      else glueLoop env fuel nsNames
    else .val ([], nextIps)

/-- Nested glue resolution of lines 91-101: for each NS host name in order,
recursively resolve it (an exception in the sub-resolution propagates), splice
its whole step log, and collect the A-record addresses of its answer payload
when it produced one, skipping names whose resolution failed. -/
def glueLoop (env : Env) (fuel : Nat) (names : List String) : Res (List StepRecord × List String) :=
  match fuel with
  | 0 => .fuelOut
  | fuel + 1 =>
    match names with
    | [] => .val ([], [])
    | n :: rest =>
      match resolveIter env fuel (env.question n) with
      | .exc => .exc
      | .fuelOut => .fuelOut
      | .val (subResp, subLog, _) =>
        match subResp with
        | none => (glueLoop env fuel rest).mapv (fun r => (subLog ++ r.1, r.2))
        | some w =>
          match env.parse w with
          | none => .exc
          | some p =>
            (glueLoop env fuel rest).mapv (fun r => (subLog ++ r.1, aRecords p.rr ++ r.2))

end

/-- Step indices of the step log of a completed run, in trace order. -/
def stepsOf : Res (Option Wire × List StepRecord × String) → List Nat
  | .val r => r.2.1.map (fun s => s.step)
  | _ => []

/-- Wire-format query message, as parsed: question for the name x., no records. -/
def qmsg : DNSMsg := ⟨"x.", [], [], []⟩

/-- Answer A record used by the concrete fixtures. -/
def ansRR : RR := ⟨"x.", 1, "1.2.3.4"⟩

/-- Reply carrying one answer A record. -/
def ansMsg : DNSMsg := ⟨"x.", [ansRR], [], []⟩

/-- Glue-less referral reply: one NS authority record, no answers, no glue. -/
def refMsg : DNSMsg := ⟨"x.", [], [⟨"x.", 2, "ns.x."⟩], []⟩

/-- Fixture in which the first root candidate times out and the second
replies (wire 2) with a direct answer. -/
def envTO : Env :=
  { parse := fun w => if w = 0 then some qmsg else if w = 2 then some ansMsg else none,
    question := fun _ => 0,
    send := fun s w => if s = "199.9.14.201" ∧ w = 0 then some (2, 7) else none }

/-- Fixture in which the first root candidate replies with a wire message
(token 9) that fails parsing, while the second root candidate would have
replied with a direct answer (wire 2). -/
def envMal : Env :=
  { parse := fun w => if w = 0 then some qmsg else if w = 2 then some ansMsg else none,
    question := fun _ => 0,
    send := fun s w =>
      if s = "198.41.0.4" ∧ w = 0 then some (9, 3)
      else if s = "199.9.14.201" ∧ w = 0 then some (2, 7) else none }

/-- Delegation-cycle fixture: the first root candidate answers every query
with the same glue-less referral naming ns.x., and the sub-query built for
any host name is the very query wire being resolved — so the nested
resolution of ns.x. re-enters its own chain. -/
def envCycle : Env :=
  { parse := fun w => if w = 0 then some qmsg else if w = 1 then some refMsg else none,
    question := fun _ => 0,
    send := fun s _ => if s = "198.41.0.4" then some (1, 1) else none }

/-- Root referral of the 3-level fixture: NS authority plus one glue A record. -/
def m1 : DNSMsg := ⟨"x.", [], [⟨"x.", 2, "ns1."⟩], [⟨"ns1.", 1, "10.0.0.1"⟩]⟩

/-- TLD referral of the 3-level fixture: NS authority plus one glue A record. -/
def m2 : DNSMsg := ⟨"x.", [], [⟨"x.", 2, "ns2."⟩], [⟨"ns2.", 1, "10.0.0.2"⟩]⟩

/-- Three-level fixture: root referral with glue (wire 1), TLD referral with
glue (wire 2), authoritative answer (wire 3). -/
def env3 : Env :=
  { parse := fun w =>
      if w = 0 then some qmsg else if w = 1 then some m1
      else if w = 2 then some m2 else if w = 3 then some ansMsg else none,
    question := fun _ => 0,
    send := fun s w =>
      if w = 0 then
        if s = "198.41.0.4" then some (1, 5)
        else if s = "10.0.0.1" then some (2, 6)
        else if s = "10.0.0.2" then some (3, 7) else none
      else none }

/-- Glue-less referral naming two next-hop servers by host name only. -/
def glueRefMsg : DNSMsg := ⟨"x.", [], [⟨"x.", 2, "nsa."⟩, ⟨"x.", 2, "nsb."⟩], []⟩

/-- Glue-less-delegation fixture: the root referral (wire 1) carries NS names
nsa. and nsb. and no glue; the nested resolution of nsa. (sub-query wire 10)
fails with every root timing out, the one of nsb. (sub-query wire 11) succeeds
with a direct answer (wire 3). -/
def envGlue : Env :=
  { parse := fun w =>
      if w = 0 then some qmsg else if w = 10 then some qmsg
      else if w = 11 then some qmsg else if w = 3 then some ansMsg
      else if w = 1 then some glueRefMsg else none,
    question := fun n => if n = "nsa." then 10 else if n = "nsb." then 11 else 99,
    send := fun s w =>
      if w = 11 ∧ s = "198.41.0.4" then some (3, 2)
      else if w = 0 ∧ s = "198.41.0.4" then some (1, 4)
      else none }

/-- Referral carrying one NS name and one glue A record whose address never
responds. -/
def mGlueDead : DNSMsg := ⟨"x.", [], [⟨"x.", 2, "nsd."⟩], [⟨"nsd.", 1, "9.9.9.9"⟩]⟩

/-- Fixture in which the first root candidate returns a glued referral (wire 1)
and the glue address 9.9.9.9 then times out. -/
def envDead : Env :=
  { parse := fun w => if w = 0 then some qmsg else if w = 1 then some mGlueDead else none,
    question := fun _ => 0,
    send := fun s w => if s = "198.41.0.4" ∧ w = 0 then some (1, 4) else none }

/-- Stage text as the core's log writer prints it: the dict lookup
s.get('stage', 'N/A') of line 136. -/
def stageStr : Option String → String
  | none => "N/A"
  | some s => s

/-- Round-trip text as the core's log writer prints it: Python prints the
dict entry directly, so a missing value appears as None. -/
def rttStr : Option Nat → String
  | none => "None"
  | some v => toString v

/-- Per-step log line written by the resolver core's server loop
(run_server, line 136 of src/iterative_resolver.py). -/
def logStepLine (s : StepRecord) : String :=
  "  Step " ++ toString s.step ++ " | Server: " ++ s.server ++ " | Stage: " ++
    stageStr s.stage ++ " | RTT: " ++ rttStr s.rtt ++ " ms"

/-- Modelled from the spec: the delimited per-step log schema of section 6,
with its eight fields in order. -/
def schemaLine (ts dom mode srv stage summ rtt cs : String) : String :=
  ts ++ " | " ++ dom ++ " | " ++ mode ++ " | " ++ srv ++ " | Step: " ++ stage ++
    " | Response: " ++ summ ++ " | RTT: " ++ rtt ++ " ms | " ++ cs

/-- Root-step success log line of the iterative client
(line 57 of src/iterative_client.py); mode holds the fixed text Iterative. -/
def clientRootLine (ts dom mode srv rtt : String) : String :=
  ts ++ " | " ++ dom ++ " | " ++ mode ++ " | " ++ srv ++
    " | Step: Root | Response: Referral | RTT: " ++ rtt ++ " ms | Cache MISS"

/-- Root-step failure log line of the iterative client
(line 67 of src/iterative_client.py); mode holds the fixed text Iterative. -/
def clientRootFailLine (ts dom mode srv ex : String) : String :=
  ts ++ " | " ++ dom ++ " | " ++ mode ++ " | " ++ srv ++
    " | Step: Root | Response: FAIL (" ++ ex ++ ") | RTT: - | Cache MISS"

/-- Occurrences of one character in a string. -/
def charCount (c : Char) (s : String) : Nat := s.data.count c

/-- The three stages of the specification's enumeration. -/
def stageEnum : List String := ["Root", "TLD", "Authoritative"]

/-- Shape of the timeout entries the source appends: rtt is null and the
stage and response keys are absent. -/
def isTimeoutShaped (r : StepRecord) : Prop :=
  r.rtt = none ∧ r.stage = none ∧ r.response = none ∧ r.status = some "timeout"

/-- Shape of the response entries the source appends: a numeric rtt, a stage
drawn from the three-stage enumeration and a non-empty response summary. -/
def isResponseShaped (r : StepRecord) : Prop :=
  r.status = none ∧ (∃ v, r.rtt = some v) ∧
    (∃ st, r.stage = some st ∧ st ∈ stageEnum) ∧
    (∃ l, r.response = some l ∧ l ≠ [])

theorem Res.mapv_eq_val {α β : Type} (f : α → β) (r : Res α) (b : β) :
    r.mapv f = .val b ↔ ∃ a, r = .val a ∧ b = f a := by
  cases r <;> simp [Res.mapv, eq_comm]

theorem probeAll_respond (env : Env) (q : Wire) (idx : Nat) (s : String)
    (rest : List String) (data : Wire) (rtt : Nat) (h : env.send s q = some (data, rtt)) :
    probeAll env q idx (s :: rest) = ([], some (s, data, rtt)) := by
  simp [probeAll, h]

theorem probeAll_all_timeout (env : Env) (q : Wire) (idx : Nat) :
    ∀ ns : List String, (∀ s ∈ ns, env.send s q = none) →
      probeAll env q idx ns = (ns.map (timeoutRec idx), none) := by
  intro ns
  induction ns with
  | nil => intro _; rfl
  | cons a l ih =>
    intro h
    have ha : env.send a q = none := h a (by simp)
    simp [probeAll, ha, ih (fun s hs => h s (by simp [hs]))]

theorem probeAll_some_send (env : Env) (q : Wire) (idx : Nat) :
    ∀ (ns : List String) (recs : List StepRecord) (s : String) (data : Wire) (rtt : Nat),
      probeAll env q idx ns = (recs, some (s, data, rtt)) → env.send s q = some (data, rtt) := by
  intro ns
  induction ns with
  | nil => intro recs s data rtt h; simp [probeAll] at h
  | cons a l ih =>
    intro recs s data rtt h
    cases ha : env.send a q with
    | some v =>
      obtain ⟨w, r⟩ := v
      rw [probeAll, ha] at h
      simp at h
      obtain ⟨-, rfl, rfl, rfl⟩ := h
      exact ha
    | none =>
      rw [probeAll, ha] at h
      simp at h
      obtain ⟨-, h2⟩ := h
      exact ih (probeAll env q idx l).1 s data rtt (by rw [← h2])

theorem probeAll_recs_timeout (env : Env) (q : Wire) (idx : Nat) :
    ∀ (ns : List String) (r : StepRecord), r ∈ (probeAll env q idx ns).1 →
      ∃ s, r = timeoutRec idx s := by
  intro ns
  induction ns with
  | nil => intro r h; simp [probeAll] at h
  | cons a l ih =>
    intro r h
    cases ha : env.send a q with
    | some v => rw [probeAll, ha] at h; simp at h
    | none =>
      rw [probeAll, ha] at h
      simp at h
      rcases h with h | h
      · exact ⟨a, h⟩
      · exact ih r h

theorem probeAll_recs_step (env : Env) (q : Wire) (idx : Nat) (ns : List String)
    (r : StepRecord) (h : r ∈ (probeAll env q idx ns).1) : r.step = idx := by
  obtain ⟨s, rfl⟩ := probeAll_recs_timeout env q idx ns r h
  rfl

theorem classifyStage_mem (idx : Nat) (m : DNSMsg) : classifyStage idx m ∈ stageEnum := by
  unfold classifyStage stageEnum
  split
  · simp
  · split <;> simp

theorem summarize_ne_nil (m : DNSMsg) : summarize m ≠ [] := by
  unfold summarize
  by_cases h1 : m.rr ≠ []
  · simp [h1]
  · by_cases h2 : m.auth = [] <;> simp [h1, h2]

theorem timeoutRec_shaped (idx : Nat) (s : String) : isTimeoutShaped (timeoutRec idx s) :=
  ⟨rfl, rfl, rfl, rfl⟩

theorem okRec_shaped (idx : Nat) (s : String) (rtt : Nat) (m : DNSMsg) :
    isResponseShaped (okRec idx s rtt m) :=
  ⟨rfl, ⟨rtt, rfl⟩, ⟨classifyStage idx m, rfl, classifyStage_mem idx m⟩,
    ⟨summarize m, rfl, summarize_ne_nil m⟩⟩

theorem charCount_append (c : Char) (a b : String) :
    charCount c (a ++ b) = charCount c a + charCount c b := by
  simp [charCount, String.data_append]

theorem envCycle_fuelOut (fuel : Nat) :
    resolveIter envCycle fuel 0 = Res.fuelOut ∧
    resolveLoop envCycle fuel 0 ROOT_NS 0 = Res.fuelOut ∧
    deriveNext envCycle fuel refMsg = Res.fuelOut ∧
    glueLoop envCycle fuel ["ns.x."] = Res.fuelOut := by
  induction fuel with
  | zero => exact ⟨rfl, rfl, rfl, rfl⟩
  | succ f ih =>
    obtain ⟨ih1, ih2, ih3, ih4⟩ := ih
    have hparse0 : envCycle.parse 0 = some qmsg := rfl
    have hparse1 : envCycle.parse 1 = some refMsg := rfl
    have hsend : envCycle.send "198.41.0.4" 0 = some (1, 1) := rfl
    have hq : envCycle.question "ns.x." = 0 := rfl
    have hrr : refMsg.rr = [] := rfl
    have har : aRecords refMsg.ar = [] := rfl
    have hns : nsRecords refMsg.auth = ["ns.x."] := rfl
    refine ⟨?_, ?_, ?_, ?_⟩
    · simp [resolveIter, hparse0, ih2, Res.mapv]
    · simp [resolveLoop, ROOT_NS, probeAll, hsend, hparse1, hrr, ih3]
    · simp [deriveNext, har, hns, ih4]
    · simp [glueLoop, hq, ih1]

/-- C3: the nested glue resolution of nameserver host names has no recursion
bound and no visited set: in the delegation-cycle fixture envCycle — where the
referral names ns.x. and the sub-query built for ns.x. re-enters the very same
chain — the run exhausts every fuel bound, i.e. the recursion of the source
never terminates on this input. -/
theorem c3_unbounded_glue_recursion : ∀ fuel, resolveIter envCycle fuel 0 = Res.fuelOut :=
  fun fuel => (envCycle_fuelOut fuel).1

/-- C1: counterexample — in the fixture envTO the first root candidate times
out and the second answers, so the flattened trace of one top-level invocation
has step indices [1, 1]: neither globally unique nor strictly increasing by 1. -/
theorem c1_counterexample :
    stepsOf (resolveIter envTO 3 0) = [1, 1] ∧
    ¬ (stepsOf (resolveIter envTO 3 0)).Nodup ∧
    ¬ List.Pairwise (fun a b => a < b) (stepsOf (resolveIter envTO 3 0)) := by
  decide

/-- C2: counterexample — in the fixture envMal the first root candidate's
reply (wire 9) fails parsing; resolve_iteratively raises, aborting the whole
resolution with an exception instead of recording the candidate as failed and
probing the next candidate, which would have answered. -/
theorem c2_counterexample :
    resolveIter envMal 3 0 = Res.exc ∧
    envMal.send "198.41.0.4" 0 = some (9, 3) ∧ envMal.parse 9 = none ∧
    envMal.send "199.9.14.201" 0 = some (2, 7) ∧ envMal.parse 2 = some ansMsg ∧
    ansMsg.rr ≠ [] := by
  decide

/-- C2 (amended): a reply that fails wire-format parsing is surfaced as an
exception that aborts the entire resolution — distinguishable from a normal
result, but the partial trace is discarded, no failure record is appended, and
the remaining candidates of the level are never probed; it is not treated like
a timed-out candidate. -/
theorem c2_amended_parse_failure_aborts (env : Env) (fuel : Nat) (q : Wire)
    (c : String) (rest : List String) (idx : Nat) (data : Wire) (rtt : Nat)
    (hsend : env.send c q = some (data, rtt)) (hparse : env.parse data = none) :
    resolveLoop env (fuel + 1) q (c :: rest) idx = Res.exc := by
  rw [resolveLoop]
  simp [probeAll, hsend, hparse]

/-- Witness for the amended C2 statement, at the concrete fixture envMal. -/
theorem c2_witness :
    resolveLoop envMal 1 0 ("198.41.0.4" :: ["199.9.14.201", "192.33.4.12"]) 0 = Res.exc :=
  c2_amended_parse_failure_aborts envMal 0 0 "198.41.0.4"
    ["199.9.14.201", "192.33.4.12"] 0 9 3 (by decide) (by decide)

/-- C6: the stage recorded for a responding probe follows the three-way rule:
level 1 is always Root; a later level is TLD exactly when the reply has a
non-empty authority section and no answer records; otherwise Authoritative.
The response entry okRec stores classifyStage verbatim. -/
theorem c6_stage_three_way_rule (idx : Nat) (m : DNSMsg) (h : idx ≠ 1) :
    classifyStage 1 m = "Root" ∧
    (m.auth ≠ [] ∧ m.rr = [] → classifyStage idx m = "TLD") ∧
    (¬ (m.auth ≠ [] ∧ m.rr = []) → classifyStage idx m = "Authoritative") := by
  refine ⟨by simp [classifyStage], fun hc => ?_, fun hc => ?_⟩ <;>
    simp [classifyStage, h, hc]

/-- Witness for C6 at level 2 with an answer-carrying and a referral reply. -/
theorem c6_witness :
    classifyStage 2 ansMsg = "Authoritative" ∧ classifyStage 2 refMsg = "TLD" :=
  ⟨(c6_stage_three_way_rule 2 ansMsg (by decide)).2.2 (by decide),
   (c6_stage_three_way_rule 2 refMsg (by decide)).2.1 (by decide)⟩

/-- C9: counterexample — the timeout entry appended for a non-responding
candidate carries no stage and no response summary at all (both keys are
absent), so not every StepRecord of a returned trace has all fields of the
schema. -/
theorem c9_counterexample :
    resolveIter envTO 3 0 =
      Res.val (some 2, [timeoutRec 1 "198.41.0.4", okRec 1 "199.9.14.201" 7 ansMsg], "x.") ∧
    (timeoutRec 1 "198.41.0.4").stage = none ∧
    (timeoutRec 1 "198.41.0.4").response = none := by
  decide

/-- C8: counterexample — the resolver core's own per-step log line (run_server,
line 136) is not an instance of the delimited schema of the specification: any
schema instance contains at least seven pipe separators, the core's line
exactly three. -/
theorem c8_counterexample :
    ¬ ∃ ts dom mode srv stage summ rtt cs,
        logStepLine (timeoutRec 1 "198.41.0.4") = schemaLine ts dom mode srv stage summ rtt cs := by
  rintro ⟨ts, dom, mode, srv, stage, summ, rtt, cs, h⟩
  have hc := congrArg (charCount '|') h
  have h0 : charCount '|' (logStepLine (timeoutRec 1 "198.41.0.4")) = 3 := by decide
  have e1 : charCount '|' " | " = 1 := by decide
  have e2 : charCount '|' " | Step: " = 1 := by decide
  have e3 : charCount '|' " | Response: " = 1 := by decide
  have e4 : charCount '|' " | RTT: " = 1 := by decide
  have e5 : charCount '|' " ms | " = 1 := by decide
  rw [h0] at hc
  simp only [schemaLine, charCount_append, e1, e2, e3, e4, e5] at hc
  omega

theorem resolveLoop_all_timeout (env : Env) (fuel : Nat) (q : Wire) (ns : List String)
    (idx : Nat) (h : ∀ s ∈ ns, env.send s q = none) :
    resolveLoop env (fuel + 1) q ns idx = Res.val (none, ns.map (timeoutRec (idx + 1))) := by
  simp only [resolveLoop]
  rw [probeAll_all_timeout env q (idx + 1) ns h]

/-- C4: candidates of a level are probed strictly sequentially in list order,
stopping at the first responder; when every candidate of the level times out
the run terminates as a Failure (payload none) whose trace carries exactly one
timeout entry (rtt null) per candidate in order, after the previously
accumulated entries, which stay intact. -/
theorem c4_sequential_probing_and_timeout_failure :
    (∀ env q idx s rest data rtt, env.send s q = some (data, rtt) →
        probeAll env q idx (s :: rest) = ([], some (s, data, rtt))) ∧
    (∀ env fuel q ns idx, (∀ s ∈ ns, env.send s q = none) →
        resolveLoop env (fuel + 1) q ns idx =
          Res.val (none, ns.map (timeoutRec (idx + 1)))) ∧
    (∀ env fuel q s rest idx data rtt m,
        env.send s q = some (data, rtt) → env.parse data = some m → m.rr = [] →
        aRecords m.ar ≠ [] → (∀ x ∈ aRecords m.ar, env.send x q = none) →
        resolveLoop env (fuel + 2) q (s :: rest) idx =
          Res.val (none, okRec (idx + 1) s rtt m ::
            (aRecords m.ar).map (timeoutRec (idx + 2)))) := by
  refine ⟨fun env q idx s rest data rtt h => probeAll_respond env q idx s rest data rtt h,
    fun env fuel q ns idx h => resolveLoop_all_timeout env fuel q ns idx h,
    fun env fuel q s rest idx data rtt m hsend hparse hrr hglue hto => ?_⟩
  have hout : probeAll env q (idx + 1) (s :: rest) = ([], some (s, data, rtt)) :=
    probeAll_respond env q (idx + 1) s rest data rtt hsend
  have hin : probeAll env q (idx + 1 + 1) (aRecords m.ar) =
      ((aRecords m.ar).map (timeoutRec (idx + 1 + 1)), none) :=
    probeAll_all_timeout env q (idx + 1 + 1) (aRecords m.ar) hto
  show resolveLoop env ((fuel + 1) + 1) q (s :: rest) idx = _
  simp only [resolveLoop, deriveNext]
  simp [hout, hin, hparse, hrr, hglue, Res.mapv]

/-- Witness for C4 at the concrete fixtures: a responder stops the probe loop,
an all-timeout root level fails with three timeout entries, and a glued
referral whose glue address times out fails with the referral entry intact. -/
theorem c4_witness :
    probeAll envTO 0 1 ["199.9.14.201"] = ([], some ("199.9.14.201", 2, 7)) ∧
    resolveLoop envGlue 1 10 ROOT_NS 0 = Res.val (none, ROOT_NS.map (timeoutRec 1)) ∧
    resolveLoop envDead 2 0 ("198.41.0.4" :: ["199.9.14.201", "192.33.4.12"]) 0 =
      Res.val (none, okRec 1 "198.41.0.4" 4 mGlueDead ::
        (aRecords mGlueDead.ar).map (timeoutRec 2)) :=
  ⟨c4_sequential_probing_and_timeout_failure.1 envTO 0 1 "199.9.14.201" [] 2 7 (by decide),
   c4_sequential_probing_and_timeout_failure.2.1 envGlue 0 10 ROOT_NS 0 (by decide),
   c4_sequential_probing_and_timeout_failure.2.2 envDead 0 0 "198.41.0.4"
     ["199.9.14.201", "192.33.4.12"] 0 1 4 mGlueDead (by decide) (by decide) (by decide)
     (by decide) (by decide)⟩

/-- C5: derivation of the next candidate set after a non-answer reply: glue
addresses of the additional section are preferred and suppress any nested
resolution; only with no glue and with NS host names present is a nested
resolution run for each name in order — a name whose resolution produced no
payload is skipped, the A-record addresses of each successful payload are
merged in order, and every sub-log is spliced in either way; a level whose
derived candidate set is empty terminates the whole resolution as a Failure
(payload none) with the accumulated trace intact. -/
theorem c5_next_candidate_derivation :
    (∀ env fuel m, aRecords m.ar ≠ [] →
        deriveNext env (fuel + 1) m = Res.val ([], aRecords m.ar)) ∧
    (∀ env fuel m, aRecords m.ar = [] → nsRecords m.auth = [] →
        deriveNext env (fuel + 1) m = Res.val ([], [])) ∧
    (∀ env fuel m, aRecords m.ar = [] → nsRecords m.auth ≠ [] →
        deriveNext env (fuel + 1) m = glueLoop env fuel (nsRecords m.auth)) ∧
    (∀ env fuel n rest l qn,
        resolveIter env fuel (env.question n) = Res.val (none, l, qn) →
        glueLoop env (fuel + 1) (n :: rest) =
          (glueLoop env fuel rest).mapv (fun r => (l ++ r.1, r.2))) ∧
    (∀ env fuel n rest w l qn p,
        resolveIter env fuel (env.question n) = Res.val (some w, l, qn) →
        env.parse w = some p →
        glueLoop env (fuel + 1) (n :: rest) =
          (glueLoop env fuel rest).mapv (fun r => (l ++ r.1, aRecords p.rr ++ r.2))) ∧
    (∀ env fuel q s rest idx data rtt m grecs,
        env.send s q = some (data, rtt) → env.parse data = some m → m.rr = [] →
        deriveNext env (fuel + 1) m = Res.val (grecs, []) →
        resolveLoop env (fuel + 2) q (s :: rest) idx =
          Res.val (none, okRec (idx + 1) s rtt m :: grecs)) := by
  refine ⟨fun env fuel m h => ?_, fun env fuel m h1 h2 => ?_, fun env fuel m h1 h2 => ?_,
    fun env fuel n rest l qn h => ?_, fun env fuel n rest w l qn p h hp => ?_,
    fun env fuel q s rest idx data rtt m grecs hsend hparse hrr hd => ?_⟩
  · simp [deriveNext, h]
  · simp [deriveNext, h1, h2]
  · simp [deriveNext, h1, h2]
  · simp [glueLoop, h]
  · simp [glueLoop, h, hp]
  · have hout : probeAll env q (idx + 1) (s :: rest) = ([], some (s, data, rtt)) :=
      probeAll_respond env q (idx + 1) s rest data rtt hsend
    show resolveLoop env ((fuel + 1) + 1) q (s :: rest) idx = _
    simp only [resolveLoop]
    simp [hout, hparse, hrr, hd]

/-- Witness for C5 at the glue-less-delegation fixture envGlue: the failing
name nsa. is skipped (its sub-log spliced), the successful name nsb.
contributes the A records of its answer payload. -/
theorem c5_witness :
    glueLoop envGlue 3 ("nsa." :: ["nsb."]) =
      (glueLoop envGlue 2 ["nsb."]).mapv
        (fun r => ([timeoutRec 1 "198.41.0.4", timeoutRec 1 "199.9.14.201",
                    timeoutRec 1 "192.33.4.12"] ++ r.1, r.2)) ∧
    glueLoop envGlue 3 ("nsb." :: []) =
      (glueLoop envGlue 2 []).mapv
        (fun r => ([okRec 1 "198.41.0.4" 2 ansMsg] ++ r.1, aRecords ansMsg.rr ++ r.2)) :=
  ⟨c5_next_candidate_derivation.2.2.2.1 envGlue 2 "nsa." ["nsb."]
     [timeoutRec 1 "198.41.0.4", timeoutRec 1 "199.9.14.201", timeoutRec 1 "192.33.4.12"]
     "x." (by decide),
   c5_next_candidate_derivation.2.2.2.2.1 envGlue 2 "nsb." [] 3
     [okRec 1 "198.41.0.4" 2 ansMsg] "x." ansMsg (by decide) (by decide)⟩

/-- C7: a three-level fixture — first root candidate answers with a glued
referral, the glued TLD server answers with a glued referral carrying an
authority section, the glued authoritative server answers with answer
records — resolves successfully to the final raw reply with a trace of
exactly three response entries, step indices 1, 2, 3 and stages Root, TLD,
Authoritative in order. -/
theorem c7_three_level_walk (env : Env) (fuel : Nat) (qw w1 w2 w3 : Wire)
    (q0 n1 n2 n3 : DNSMsg) (r1 r2 r3 : Nat) (ip2 ip3 : String)
    (hq : env.parse qw = some q0)
    (h1 : env.send "198.41.0.4" qw = some (w1, r1))
    (hp1 : env.parse w1 = some n1) (hn1rr : n1.rr = []) (hn1glue : aRecords n1.ar = [ip2])
    (h2 : env.send ip2 qw = some (w2, r2))
    (hp2 : env.parse w2 = some n2) (hn2rr : n2.rr = []) (hn2auth : n2.auth ≠ [])
    (hn2glue : aRecords n2.ar = [ip3])
    (h3 : env.send ip3 qw = some (w3, r3))
    (hp3 : env.parse w3 = some n3) (hn3rr : n3.rr ≠ []) :
    resolveIter env (fuel + 4) qw =
      Res.val (some w3,
        [okRec 1 "198.41.0.4" r1 n1, okRec 2 ip2 r2 n2, okRec 3 ip3 r3 n3], q0.qname) ∧
    (okRec 1 "198.41.0.4" r1 n1).stage = some "Root" ∧
    (okRec 2 ip2 r2 n2).stage = some "TLD" ∧
    (okRec 3 ip3 r3 n3).stage = some "Authoritative" := by
  refine ⟨?_, ?_, ?_, ?_⟩
  · show resolveIter env ((((fuel + 1) + 1) + 1) + 1) qw = _
    simp only [resolveIter, resolveLoop, deriveNext]
    simp [probeAll, ROOT_NS, hq, h1, h2, h3, hp1, hp2, hp3, hn1rr, hn2rr, hn3rr,
      hn1glue, hn2glue, Res.mapv]
  · simp [okRec, classifyStage]
  · simp [okRec, classifyStage, hn2auth, hn2rr]
  · simp [okRec, classifyStage, hn3rr]

/-- Witness for C7 at the concrete 3-level fixture env3. -/
theorem c7_witness :
    resolveIter env3 4 0 =
      Res.val (some 3, [okRec 1 "198.41.0.4" 5 m1, okRec 2 "10.0.0.1" 6 m2,
        okRec 3 "10.0.0.2" 7 ansMsg], qmsg.qname) ∧
    (okRec 1 "198.41.0.4" 5 m1).stage = some "Root" ∧
    (okRec 2 "10.0.0.1" 6 m2).stage = some "TLD" ∧
    (okRec 3 "10.0.0.2" 7 ansMsg).stage = some "Authoritative" :=
  c7_three_level_walk env3 0 0 1 2 3 qmsg m1 m2 ansMsg 5 6 7 "10.0.0.1" "10.0.0.2"
    (by decide) (by decide) (by decide) (by decide) (by decide) (by decide) (by decide)
    (by decide) (by decide) (by decide) (by decide) (by decide) (by decide)

theorem resolveLoop_payload (env : Env) :
    ∀ (fuel : Nat) (q : Wire) (ns : List String) (idx : Nat) (pw : Wire) (tl : List StepRecord),
      resolveLoop env fuel q ns idx = Res.val (some pw, tl) →
      ∃ s r m, env.send s q = some (pw, r) ∧ env.parse pw = some m ∧ m.rr ≠ [] := by
  intro fuel
  induction fuel with
  | zero => intro q ns idx pw tl h; simp [resolveLoop] at h
  | succ f ih =>
    intro q ns idx pw tl h
    rcases hpr : probeAll env q (idx + 1) ns with ⟨recs, pres⟩
    rcases pres with _ | ⟨s, data, rtt⟩
    · have hstep : resolveLoop env (f + 1) q ns idx = Res.val (none, recs) := by
        simp only [resolveLoop]
        rw [hpr]
      rw [hstep] at h
      simp at h
    · rcases hpd : env.parse data with _ | m
      · have hstep : resolveLoop env (f + 1) q ns idx = Res.exc := by
          simp only [resolveLoop]
          rw [hpr]
          simp [hpd]
        rw [hstep] at h
        simp at h
      · by_cases hrr : m.rr = []
        · rcases hdn : deriveNext env f m with _ | _ | ⟨grecs, ips⟩
          · have hstep : resolveLoop env (f + 1) q ns idx = Res.exc := by
              simp only [resolveLoop]
              rw [hpr]
              simp [hpd, hrr, hdn]
            rw [hstep] at h
            simp at h
          · have hstep : resolveLoop env (f + 1) q ns idx = Res.fuelOut := by
              simp only [resolveLoop]
              rw [hpr]
              simp [hpd, hrr, hdn]
            rw [hstep] at h
            simp at h
          · by_cases hips : ips = []
            · have hstep : resolveLoop env (f + 1) q ns idx =
                  Res.val (none, recs ++ okRec (idx + 1) s rtt m :: grecs) := by
                simp only [resolveLoop]
                rw [hpr]
                simp [hpd, hrr, hdn, hips]
              rw [hstep] at h
              simp at h
            · have hstep : resolveLoop env (f + 1) q ns idx =
                  (resolveLoop env f q ips (idx + 1)).mapv
                    (fun r => (r.1, recs ++ okRec (idx + 1) s rtt m :: (grecs ++ r.2))) := by
                simp only [resolveLoop]
                rw [hpr]
                simp [hpd, hrr, hdn, hips]
              rw [hstep, Res.mapv_eq_val] at h
              obtain ⟨⟨p2, tl2⟩, hloop, heq⟩ := h
              have hp2 : some pw = p2 := congrArg Prod.fst heq
              exact ih q ips (idx + 1) pw tl2 (by rw [hloop, ← hp2])
        · have hstep : resolveLoop env (f + 1) q ns idx =
              Res.val (some data, recs ++ [okRec (idx + 1) s rtt m]) := by
            simp only [resolveLoop]
            rw [hpr]
            simp [hpd, hrr]
          rw [hstep] at h
          simp at h
          obtain ⟨rfl, -⟩ := h
          exact ⟨s, rtt, m,
            probeAll_some_send env q (idx + 1) ns recs s data rtt hpr, hpd, hrr⟩

/-- C10: whenever resolution returns a payload, that payload is exactly the
raw datagram some probed server sent back for the original query wire, passed
through unmodified, and it parses to a message with non-empty answer records;
a failed resolution returns the payload none by construction. -/
theorem c10_payload_is_final_reply (env : Env) (fuel : Nat) (w pw : Wire)
    (tl : List StepRecord) (qn : String)
    (h : resolveIter env fuel w = Res.val (some pw, tl, qn)) :
    ∃ s r m, env.send s w = some (pw, r) ∧ env.parse pw = some m ∧ m.rr ≠ [] := by
  cases fuel with
  | zero => simp [resolveIter] at h
  | succ f =>
    rw [resolveIter] at h
    rcases hq : env.parse w with _ | q0
    · simp [hq] at h
    · simp only [hq] at h
      rw [Res.mapv_eq_val] at h
      obtain ⟨⟨p2, tl2⟩, hloop, heq⟩ := h
      have hp2 : some pw = p2 := congrArg Prod.fst heq
      exact resolveLoop_payload env f w ROOT_NS 0 pw tl2 (by rw [hloop, ← hp2])

/-- Witness for C10 at the fixture envTO, whose payload is wire 2. -/
theorem c10_witness :
    ∃ s r m, envTO.send s 0 = some (2, r) ∧ envTO.parse 2 = some m ∧ m.rr ≠ [] :=
  c10_payload_is_final_reply envTO 3 0 2
    [timeoutRec 1 "198.41.0.4", okRec 1 "199.9.14.201" 7 ansMsg] "x." (by decide)

theorem head_of_append_cons {recs : List StepRecord} {rec1 r : StepRecord}
    {rest tl : List StepRecord} (h : recs ++ rec1 :: rest = r :: tl) :
    r ∈ recs ∨ r = rec1 := by
  cases recs with
  | nil =>
    simp at h
    exact Or.inr h.1.symm
  | cons a l =>
    simp at h
    exact Or.inl (by rw [← h.1]; exact List.mem_cons_self a l)

theorem resolveLoop_head_step (env : Env) (fuel : Nat) (q : Wire) (ns : List String)
    (idx : Nat) (p : Option Wire) (r : StepRecord) (tl : List StepRecord)
    (h : resolveLoop env fuel q ns idx = Res.val (p, r :: tl)) : r.step = idx + 1 := by
  cases fuel with
  | zero => simp [resolveLoop] at h
  | succ f =>
    rcases hpr : probeAll env q (idx + 1) ns with ⟨recs, pres⟩
    have hrecs : ∀ x ∈ recs, x.step = idx + 1 := fun x hx =>
      probeAll_recs_step env q (idx + 1) ns x (by rw [hpr]; exact hx)
    rcases pres with _ | ⟨s, data, rtt⟩
    · have hstep : resolveLoop env (f + 1) q ns idx = Res.val (none, recs) := by
        simp only [resolveLoop]
        rw [hpr]
      rw [hstep] at h
      simp at h
      exact hrecs r (by rw [h.2]; exact List.mem_cons_self r tl)
    · rcases hpd : env.parse data with _ | m
      · have hstep : resolveLoop env (f + 1) q ns idx = Res.exc := by
          simp only [resolveLoop]
          rw [hpr]
          simp [hpd]
        rw [hstep] at h
        simp at h
      · have hok : (okRec (idx + 1) s rtt m).step = idx + 1 := rfl
        by_cases hrr : m.rr = []
        · rcases hdn : deriveNext env f m with _ | _ | ⟨grecs, ips⟩
          · have hstep : resolveLoop env (f + 1) q ns idx = Res.exc := by
              simp only [resolveLoop]
              rw [hpr]
              simp [hpd, hrr, hdn]
            rw [hstep] at h
            simp at h
          · have hstep : resolveLoop env (f + 1) q ns idx = Res.fuelOut := by
              simp only [resolveLoop]
              rw [hpr]
              simp [hpd, hrr, hdn]
            rw [hstep] at h
            simp at h
          · by_cases hips : ips = []
            · have hstep : resolveLoop env (f + 1) q ns idx =
                  Res.val (none, recs ++ okRec (idx + 1) s rtt m :: grecs) := by
                simp only [resolveLoop]
                rw [hpr]
                simp [hpd, hrr, hdn, hips]
              rw [hstep] at h
              simp at h
              rcases head_of_append_cons h.2 with hm | hm
              · exact hrecs r hm
              · rw [hm]; exact hok
            · have hstep : resolveLoop env (f + 1) q ns idx =
                  (resolveLoop env f q ips (idx + 1)).mapv
                    (fun x => (x.1, recs ++ okRec (idx + 1) s rtt m :: (grecs ++ x.2))) := by
                simp only [resolveLoop]
                rw [hpr]
                simp [hpd, hrr, hdn, hips]
              rw [hstep, Res.mapv_eq_val] at h
              obtain ⟨⟨p2, tl2⟩, -, heq⟩ := h
              have ht : r :: tl = recs ++ okRec (idx + 1) s rtt m :: (grecs ++ tl2) :=
                congrArg Prod.snd heq
              rcases head_of_append_cons ht.symm with hm | hm
              · exact hrecs r hm
              · rw [hm]; exact hok
        · have hstep : resolveLoop env (f + 1) q ns idx =
              Res.val (some data, recs ++ [okRec (idx + 1) s rtt m]) := by
            simp only [resolveLoop]
            rw [hpr]
            simp [hpd, hrr]
          rw [hstep] at h
          simp at h
          rcases head_of_append_cons h.2 with hm | hm
          · exact hrecs r hm
          · rw [hm]; exact hok

/-- C1 (amended): step indices are per-invocation level ordinals, not global
counters: the first record of any completed invocation's trace — including any
spliced nested sub-trace, whose records were produced by their own invocation —
has step index 1, and within one level every timeout entry carries that level's
index (shared also by the level's response entry); indices are therefore
causally ordered per level but neither globally unique nor increasing across
nested glue resolutions. -/
theorem c1_amended_level_indices :
    (∀ env fuel w p r tl qn,
        resolveIter env fuel w = Res.val (p, r :: tl, qn) → r.step = 1) ∧
    (∀ env q idx ns r, r ∈ (probeAll env q idx ns).1 → r.step = idx) := by
  constructor
  · intro env fuel w p r tl qn h
    cases fuel with
    | zero => simp [resolveIter] at h
    | succ f =>
      rw [resolveIter] at h
      rcases hq : env.parse w with _ | q0
      · simp [hq] at h
      · simp only [hq] at h
        rw [Res.mapv_eq_val] at h
        obtain ⟨⟨p2, tl2⟩, hloop, heq⟩ := h
        have ht : r :: tl = tl2 := congrArg (fun x => x.2.1) heq
        exact resolveLoop_head_step env f w ROOT_NS 0 p2 r tl (by rw [hloop, ← ht])
  · exact fun env q idx ns r h => probeAll_recs_step env q idx ns r h

/-- Witness for the amended C1 statement: head of the envTO trace has index 1,
and a timeout entry probed at level 2 carries index 2. -/
theorem c1_witness :
    (timeoutRec 1 "198.41.0.4").step = 1 ∧ (timeoutRec 2 "1.2.3.4").step = 2 :=
  ⟨c1_amended_level_indices.1 envTO 3 0 (some 2) (timeoutRec 1 "198.41.0.4")
     [okRec 1 "199.9.14.201" 7 ansMsg] "x." (by decide),
   c1_amended_level_indices.2 envGlue 0 2 ["1.2.3.4"] (timeoutRec 2 "1.2.3.4") (by decide)⟩

theorem trace_records_shaped (env : Env) :
    ∀ fuel : Nat,
      (∀ w p tl qn, resolveIter env fuel w = Res.val (p, tl, qn) →
        ∀ r ∈ tl, isTimeoutShaped r ∨ isResponseShaped r) ∧
      (∀ q ns idx p tl, resolveLoop env fuel q ns idx = Res.val (p, tl) →
        ∀ r ∈ tl, isTimeoutShaped r ∨ isResponseShaped r) ∧
      (∀ pm recs ips, deriveNext env fuel pm = Res.val (recs, ips) →
        ∀ r ∈ recs, isTimeoutShaped r ∨ isResponseShaped r) ∧
      (∀ names recs ips, glueLoop env fuel names = Res.val (recs, ips) →
        ∀ r ∈ recs, isTimeoutShaped r ∨ isResponseShaped r) := by
  intro fuel
  induction fuel with
  | zero =>
    refine ⟨fun w p tl qn h => ?_, fun q ns idx p tl h => ?_,
      fun pm recs ips h => ?_, fun names recs ips h => ?_⟩
    · simp [resolveIter] at h
    · simp [resolveLoop] at h
    · simp [deriveNext] at h
    · simp [glueLoop] at h
  | succ f ih =>
    obtain ⟨ihIter, ihLoop, ihDerive, ihGlue⟩ := ih
    have probeShaped : ∀ (q : Wire) (idx : Nat) (ns : List String) (x : StepRecord),
        x ∈ (probeAll env q idx ns).1 → isTimeoutShaped x ∨ isResponseShaped x := by
      intro q idx ns x hx
      obtain ⟨s, rfl⟩ := probeAll_recs_timeout env q idx ns x hx
      exact Or.inl (timeoutRec_shaped idx s)
    refine ⟨fun w p tl qn h => ?_, fun q ns idx p tl h => ?_,
      fun pm recs ips h => ?_, fun names recs ips h => ?_⟩
    · rw [resolveIter] at h
      rcases hq : env.parse w with _ | q0
      · simp [hq] at h
      · simp only [hq] at h
        rw [Res.mapv_eq_val] at h
        obtain ⟨⟨p2, tl2⟩, hloop, heq⟩ := h
        have ht : tl = tl2 := congrArg (fun x => x.2.1) heq
        rw [ht]
        exact ihLoop w ROOT_NS 0 p2 tl2 hloop
    · rcases hpr : probeAll env q (idx + 1) ns with ⟨recs0, pres⟩
      have hrecs : ∀ x ∈ recs0, isTimeoutShaped x ∨ isResponseShaped x := fun x hx =>
        probeShaped q (idx + 1) ns x (by rw [hpr]; exact hx)
      rcases pres with _ | ⟨s, data, rtt⟩
      · have hstep : resolveLoop env (f + 1) q ns idx = Res.val (none, recs0) := by
          simp only [resolveLoop]
          rw [hpr]
        rw [hstep] at h
        simp at h
        intro r hr
        exact hrecs r (by rw [h.2]; exact hr)
      · rcases hpd : env.parse data with _ | m
        · have hstep : resolveLoop env (f + 1) q ns idx = Res.exc := by
            simp only [resolveLoop]
            rw [hpr]
            simp [hpd]
          rw [hstep] at h
          simp at h
        · by_cases hrr : m.rr = []
          · rcases hdn : deriveNext env f m with _ | _ | ⟨grecs, ips⟩
            · have hstep : resolveLoop env (f + 1) q ns idx = Res.exc := by
                simp only [resolveLoop]
                rw [hpr]
                simp [hpd, hrr, hdn]
              rw [hstep] at h
              simp at h
            · have hstep : resolveLoop env (f + 1) q ns idx = Res.fuelOut := by
                simp only [resolveLoop]
                rw [hpr]
                simp [hpd, hrr, hdn]
              rw [hstep] at h
              simp at h
            · have hgrecs : ∀ x ∈ grecs, isTimeoutShaped x ∨ isResponseShaped x :=
                ihDerive m grecs ips hdn
              by_cases hips : ips = []
              · have hstep : resolveLoop env (f + 1) q ns idx =
                    Res.val (none, recs0 ++ okRec (idx + 1) s rtt m :: grecs) := by
                  simp only [resolveLoop]
                  rw [hpr]
                  simp [hpd, hrr, hdn, hips]
                rw [hstep] at h
                simp at h
                intro r hr
                have hm : r ∈ recs0 ++ okRec (idx + 1) s rtt m :: grecs := by
                  rw [h.2]; exact hr
                rcases List.mem_append.mp hm with hm1 | hm1
                · exact hrecs r hm1
                · rcases List.mem_cons.mp hm1 with hm2 | hm2
                  · rw [hm2]; exact Or.inr (okRec_shaped (idx + 1) s rtt m)
                  · exact hgrecs r hm2
              · have hstep : resolveLoop env (f + 1) q ns idx =
                    (resolveLoop env f q ips (idx + 1)).mapv
                      (fun x => (x.1, recs0 ++ okRec (idx + 1) s rtt m :: (grecs ++ x.2))) := by
                  simp only [resolveLoop]
                  rw [hpr]
                  simp [hpd, hrr, hdn, hips]
                rw [hstep, Res.mapv_eq_val] at h
                obtain ⟨⟨p2, tl2⟩, hloop, heq⟩ := h
                have htl2 : ∀ x ∈ tl2, isTimeoutShaped x ∨ isResponseShaped x :=
                  ihLoop q ips (idx + 1) p2 tl2 hloop
                have ht : tl = recs0 ++ okRec (idx + 1) s rtt m :: (grecs ++ tl2) :=
                  congrArg Prod.snd heq
                intro r hr
                rw [ht] at hr
                rcases List.mem_append.mp hr with hm1 | hm1
                · exact hrecs r hm1
                · rcases List.mem_cons.mp hm1 with hm2 | hm2
                  · rw [hm2]; exact Or.inr (okRec_shaped (idx + 1) s rtt m)
                  · rcases List.mem_append.mp hm2 with hm3 | hm3
                    · exact hgrecs r hm3
                    · exact htl2 r hm3
          · have hstep : resolveLoop env (f + 1) q ns idx =
                Res.val (some data, recs0 ++ [okRec (idx + 1) s rtt m]) := by
              simp only [resolveLoop]
              rw [hpr]
              simp [hpd, hrr]
            rw [hstep] at h
            simp at h
            intro r hr
            have hm : r ∈ recs0 ++ [okRec (idx + 1) s rtt m] := by
              rw [h.2]; exact hr
            rcases List.mem_append.mp hm with hm1 | hm1
            · exact hrecs r hm1
            · simp at hm1
              rw [hm1]; exact Or.inr (okRec_shaped (idx + 1) s rtt m)
    · simp only [deriveNext] at h
      by_cases ha : aRecords pm.ar = []
      · by_cases hn : nsRecords pm.auth = []
        · simp [ha, hn] at h
          rcases h with ⟨rfl, rfl⟩
          intro r hr
          simp at hr
        · simp [ha, hn] at h
          exact ihGlue (nsRecords pm.auth) recs ips h
      · simp [ha] at h
        rcases h with ⟨rfl, rfl⟩
        intro r hr
        simp at hr
    · cases names with
      | nil =>
        simp [glueLoop] at h
        rcases h with ⟨rfl, rfl⟩
        intro r hr
        simp at hr
      | cons n rest =>
        rcases hsub : resolveIter env f (env.question n) with _ | _ | ⟨subResp, subLog, qn2⟩
        · have hstep : glueLoop env (f + 1) (n :: rest) = Res.exc := by
            simp [glueLoop, hsub]
          rw [hstep] at h
          simp at h
        · have hstep : glueLoop env (f + 1) (n :: rest) = Res.fuelOut := by
            simp [glueLoop, hsub]
          rw [hstep] at h
          simp at h
        · have hsubLog : ∀ x ∈ subLog, isTimeoutShaped x ∨ isResponseShaped x :=
            ihIter (env.question n) subResp subLog qn2 hsub
          rcases subResp with _ | w2
          · have hstep : glueLoop env (f + 1) (n :: rest) =
                (glueLoop env f rest).mapv (fun x => (subLog ++ x.1, x.2)) := by
              simp [glueLoop, hsub]
            rw [hstep, Res.mapv_eq_val] at h
            obtain ⟨⟨recs2, ips2⟩, hg, heq⟩ := h
            have hr2 : ∀ x ∈ recs2, isTimeoutShaped x ∨ isResponseShaped x :=
              ihGlue rest recs2 ips2 hg
            have ht : recs = subLog ++ recs2 := congrArg Prod.fst heq
            intro r hr
            rw [ht] at hr
            rcases List.mem_append.mp hr with hm | hm
            · exact hsubLog r hm
            · exact hr2 r hm
          · rcases hpw : env.parse w2 with _ | pmsg
            · have hstep : glueLoop env (f + 1) (n :: rest) = Res.exc := by
                simp [glueLoop, hsub, hpw]
              rw [hstep] at h
              simp at h
            · have hstep : glueLoop env (f + 1) (n :: rest) =
                  (glueLoop env f rest).mapv
                    (fun x => (subLog ++ x.1, aRecords pmsg.rr ++ x.2)) := by
                simp [glueLoop, hsub, hpw]
              rw [hstep, Res.mapv_eq_val] at h
              obtain ⟨⟨recs2, ips2⟩, hg, heq⟩ := h
              have hr2 : ∀ x ∈ recs2, isTimeoutShaped x ∨ isResponseShaped x :=
                ihGlue rest recs2 ips2 hg
              have ht : recs = subLog ++ recs2 := congrArg Prod.fst heq
              intro r hr
              rw [ht] at hr
              rcases List.mem_append.mp hr with hm | hm
              · exact hsubLog r hm
              · exact hr2 r hm

/-- C9 (amended): every record of a completed trace — timed-out candidates
included — carries a step index and a server address, and is of one of exactly
two shapes: a response entry with a numeric rtt, a stage drawn from
Root/TLD/Authoritative and a non-empty response summary, or a timeout entry
with rtt null, status timeout, and no stage and no response summary at all
(the two fields the claim as stated also required of timeout records). -/
theorem c9_amended_record_shapes (env : Env) (fuel : Nat) (w : Wire)
    (p : Option Wire) (tl : List StepRecord) (qn : String)
    (h : resolveIter env fuel w = Res.val (p, tl, qn)) :
    ∀ r ∈ tl, isTimeoutShaped r ∨ isResponseShaped r :=
  (trace_records_shaped env fuel).1 w p tl qn h

/-- Witness for the amended C9 statement at the fixture envTO, whose trace has
one timeout entry and one response entry. -/
theorem c9_witness :
    isTimeoutShaped (timeoutRec 1 "198.41.0.4") ∨
      isResponseShaped (timeoutRec 1 "198.41.0.4") :=
  c9_amended_record_shapes envTO 3 0 (some 2)
    [timeoutRec 1 "198.41.0.4", okRec 1 "199.9.14.201" 7 ansMsg] "x." (by decide)
    (timeoutRec 1 "198.41.0.4") (by decide)

/-- C8 (amended): the delimited schema is not what the resolver core writes —
run_server serializes each StepRecord in a different step-line format (see the
counterexample for C8) — it is the format of the peripheral iterative client:
the client's successful step lines are exact instances of the schema, while
its failure lines deviate from the schema too, writing the RTT field as a bare
dash without the schema's trailing ms unit. -/
theorem c8_amended_formats :
    (∀ ts dom mode srv rtt, clientRootLine ts dom mode srv rtt =
        schemaLine ts dom mode srv "Root" "Referral" rtt "Cache MISS") ∧
    (¬ ∃ ts dom mode srv stage summ rtt cs,
        clientRootFailLine "t0" "d0" "Iterative" "s0" "e0" =
          schemaLine ts dom mode srv stage summ rtt cs) := by
  constructor
  · intro ts dom mode srv rtt
    simp only [clientRootLine, schemaLine]
    rw [show (" | Step: Root | Response: Referral | RTT: " : String) =
          " | Step: " ++ "Root" ++ " | Response: " ++ "Referral" ++ " | RTT: " from rfl,
        show (" ms | Cache MISS" : String) = " ms | " ++ "Cache MISS" from rfl]
    simp [String.append_assoc]
  · rintro ⟨ts, dom, mode, srv, stage, summ, rtt, cs, h⟩
    have hc := congrArg (charCount 'm') h
    have h0 : charCount 'm' (clientRootFailLine "t0" "d0" "Iterative" "s0" "e0") = 0 := by
      decide
    have e5 : charCount 'm' " ms | " = 1 := by decide
    rw [h0] at hc
    simp only [schemaLine, charCount_append, e5] at hc
    omega

/-- Witness for C3: already at fuel 5 the cycle fixture exhausts its bound. -/
theorem c3_witness : resolveIter envCycle 5 0 = Res.fuelOut :=
  c3_unbounded_glue_recursion 5

/-- Witness for the amended C8 statement at concrete field values. -/
theorem c8_witness :
    clientRootLine "t0" "d0" "Iterative" "s0" "12.34" =
      schemaLine "t0" "d0" "Iterative" "s0" "Root" "Referral" "12.34" "Cache MISS" :=
  c8_amended_formats.1 "t0" "d0" "Iterative" "s0" "12.34"
